import Mathlib

/-!
# Verification of the GeoPortal backend layer cache (src/backend/app.py)

A shallow embedding of the backend's layer cache, refresh orchestrator,
geometry-kind inference, style derivation, sample fallback and filesystem
watcher handlers, together with theorems settling the specification claims.

Conventions of the embedding:
* Python dicts that hold data (the cache, styles) are association lists
  `List (String × _)` that keep Python's dict semantics: assignment to an
  existing key updates the value in place (preserving position), assignment
  to a fresh key appends, `pop` deletes.
* The external geopandas library is abstracted: a `Gdf` value records exactly
  the slice of a GeoDataFrame that `app.py` consumes (row geometry types,
  columns, the serialized GeoJSON, total bounds), and file reading is a
  parameter `read_file : String → Option Gdf` (`none` = the `except` branch
  of `load_shp`, or geopandas unavailable).
* Wall-clock time (`time.time()`) is a parameter `now : ℚ`.
* Floats that are pure data (coordinates, bounds, timestamps) are `ℚ`.
-/

namespace Geoportal

/-! ## String helpers (Python `in`, `str.endswith`, `pathlib.Path(.).stem`) -/

/-- `startsChars n h`: the char list `n` is a leading segment of `h`
(Python prefix test used to implement substring search). -/
def startsChars : List Char → List Char → Bool
  | [], _ => true
  | _ :: _, [] => false
  | a :: as, b :: bs => a = b && startsChars as bs

/-- `subChars n h`: `n` occurs contiguously inside `h` — Python's `n in h`
on strings. -/
def subChars (n : List Char) : List Char → Bool
  | [] => startsChars n []
  | c :: t => startsChars n (c :: t) || subChars n t

/-- Python `k in n` for strings. -/
def isSubstr (k n : String) : Bool := subChars k.data n.data

/-- Python `s.endswith(suf)`. -/
def strEndsWith (s suf : String) : Bool := startsChars suf.data.reverse s.data.reverse

/-- `pathlib.Path(path).stem`: the final path component without its last
suffix (a leading dot alone does not start a suffix). -/
def stem (path : String) : String :=
  let base := (path.data.reverse.takeWhile (fun c => c ≠ '/')).reverse
  let r := base.reverse
  let afterDot := r.takeWhile (fun c => c ≠ '.')
  if afterDot.length = r.length then ⟨base⟩
  else if (r.drop (afterDot.length + 1)).isEmpty then ⟨base⟩
  else ⟨(r.drop (afterDot.length + 1)).reverse⟩

/-- Python `str.lower()` (ASCII case folding, which covers every name the
backend handles). -/
def strLower (s : String) : String := ⟨s.data.map Char.toLower⟩

/-! ## Static configuration tables (app.py lines 46-70)

Python dicts iterate in insertion order, so `NAME_TYPE` and `GEOM_MAP` are
ordered pair lists in source declaration order. -/

/-- `NAME_TYPE` (app.py lines 46-56): keyword → geometry kind, declaration
order preserved. -/
def NAME_TYPE : List (String × String) :=
  [("admin", "polygon"), ("boundary", "polygon"), ("boundaries", "polygon"),
   ("building", "polygon"), ("buildings", "polygon"), ("landuse", "polygon"),
   ("land_use", "polygon"), ("parcel", "polygon"), ("zone", "polygon"), ("block", "polygon"),
   ("water", "polyline"), ("water_supply", "polyline"), ("sewerage", "polyline"), ("sewer", "polyline"),
   ("road", "polyline"), ("roads", "polyline"), ("street", "polyline"), ("streets", "polyline"),
   ("pipe", "polyline"), ("pipeline", "polyline"), ("network", "polyline"), ("drain", "polyline"),
   ("chamber", "point"), ("chambers", "point"), ("manhole", "point"), ("manholes", "point"),
   ("utility", "point"), ("utilities", "point"), ("hydrant", "point"), ("valve", "point"),
   ("pump", "point"), ("asset", "point"), ("assets", "point"), ("well", "point"), ("tower", "point")]

/-- `GEOM_MAP` (app.py lines 57-61): shapely geometry type → kind. -/
def GEOM_MAP : List (String × String) :=
  [("Point", "point"), ("MultiPoint", "point"),
   ("LineString", "polyline"), ("MultiLineString", "polyline"),
   ("Polygon", "polygon"), ("MultiPolygon", "polygon")]

/-- `COLORS` (app.py lines 62-64): the fixed 15-entry palette. -/
def COLORS : List String :=
  ["#4FC3F7", "#81C784", "#FFB74D", "#E57373", "#CE93D8",
   "#4DB6AC", "#F06292", "#AED581", "#FFD54F", "#26C6DA",
   "#7986CB", "#A1887F", "#90A4AE", "#FF8A65", "#4DD0E1"]

/-- A style-dict value: numbers (opacity, weight, radius) or strings (colors). -/
inductive SVal where
  | num (q : ℚ)
  | str (s : String)
deriving DecidableEq, Repr

/-- A style dict, in Python dict order. -/
abbrev Style := List (String × SVal)

/-- `DEF_STYLE` (app.py lines 66-70), keyed by geometry kind. -/
def DEF_STYLE : List (String × Style) :=
  [("polygon", [("fillOpacity", SVal.num 0.2), ("weight", SVal.num 2), ("opacity", SVal.num 0.9)]),
   ("polyline", [("weight", SVal.num 3), ("opacity", SVal.num 0.9)]),
   ("point", [("radius", SVal.num 7), ("fillOpacity", SVal.num 0.9),
              ("weight", SVal.num 2), ("opacity", SVal.num 1)])]

/-! ## Geometry data model

The GeoJSON payloads the backend caches.  Loader-produced GeoJSON comes from
`gdf.to_json()` (external library) and is carried opaquely inside `Gdf`;
the sample fabrication in `_load_samples`/`to_geojson` is embedded fully. -/

/-- A property value in a feature's attribute record. -/
inductive PVal where
  | str (s : String)
  | num (q : ℚ)
deriving DecidableEq, Repr

/-- Geometry coordinates: a point, a line string, or polygon rings — the
three coordinate shapes `to_geojson` produces. -/
inductive Coords where
  | pt (xy : ℚ × ℚ)
  | line (ps : List (ℚ × ℚ))
  | poly (rings : List (List (ℚ × ℚ)))
deriving DecidableEq, Repr

structure Geometry where
  gtype : String
  coordinates : Coords
deriving DecidableEq, Repr

structure Feature where
  properties : List (String × PVal)
  geometry : Geometry
deriving DecidableEq, Repr

/-- A GeoJSON FeatureCollection (the `"type"` tag is constant). -/
structure GeoJson where
  features : List Feature
deriving DecidableEq, Repr

/-- The layer dict built by `load_shp` / `_load_samples` (app.py lines 97-101,
207-213).  `style` is absent from the dict `load_shp` returns and is written
by the caller; it is modelled as a field initialized to `[]` by the loader. -/
structure LayerRecord where
  name : String
  type : String
  geojson : GeoJson
  bounds : List ℚ
  count : Nat
  fields : List String
  style : Style
  file_path : Option String
  loaded_at : ℚ
deriving DecidableEq, Repr

/-! ## detect_type and make_style (app.py lines 72-85) -/

/-- The slice of a geopandas `GeoDataFrame` that app.py consumes after CRS
normalization and datetime stringification: per-row geometry types
(`gdf.geometry.geom_type`, so `len(gdf) = geomTypes.length`), column names
(including `"geometry"`), the `to_json()` output, and `total_bounds`. -/
structure Gdf where
  geomTypes : List String
  columns : List String
  geojson : GeoJson
  bounds : List ℚ
deriving DecidableEq, Repr

/-- `GEOM_MAP.get(gt, "polygon")` (app.py line 77). -/
def geomMapGet (gt : String) : String :=
  (((GEOM_MAP.find? (fun kv => kv.1 = gt)).map (fun kv => kv.2)).getD "polygon")

/-- `detect_type` (app.py lines 72-78): first keyword of `NAME_TYPE` occurring
in the lowercased name wins; otherwise inspect the first row's geometry type;
otherwise `"polygon"`. -/
def detect_type (name : String) (gdf : Option Gdf) : String :=
  let n := strLower name
  match NAME_TYPE.find? (fun kv => isSubstr kv.1 n) with
  | some kv => kv.2
  | none =>
      match gdf with
      | some g =>
          match g.geomTypes with
          | gt :: _ => geomMapGet gt
          | [] => "polygon"
      | none => "polygon"

/-- `make_style` (app.py lines 80-85): copy `DEF_STYLE[ltype]`, append
`color`, and for polygon/point append `fillColor`.  (In the source an `ltype`
outside the three kinds would raise `KeyError`; every call site passes a
`detect_type` result or a sample's `type`, all of which are among the three,
so the default branch below is unreachable at call sites.) -/
def make_style (ltype : String) (color : String) : Style :=
  let s :=
    match DEF_STYLE.find? (fun kv => kv.1 = ltype) with
    | some kv => kv.2
    | none => []
  let s := s ++ [("color", SVal.str color)]
  if ltype = "polygon" || ltype = "point" then s ++ [("fillColor", SVal.str color)] else s

/-- `load_shp` (app.py lines 87-103): read the file through the external
library (`read_file`; `none` covers both a missing geopandas and the caught
parse exception), then assemble the layer dict.  `now` is `time.time()`. -/
def load_shp (read_file : String → Option Gdf) (now : ℚ) (path : String) :
    Option LayerRecord :=
  match read_file path with
  | none => none
  | some gdf =>
      let name := stem path
      some { name := name
             type := detect_type name (some gdf)
             geojson := gdf.geojson
             bounds := gdf.bounds
             count := gdf.geomTypes.length
             fields := gdf.columns.filter (fun c => c ≠ "geometry")
             style := []
             file_path := some path
             loaded_at := now }

/-! ## The layer cache (app.py lines 43-44)

`layer_cache` is a Python dict.  We model it as an association list with
dict semantics: assignment to a present key updates the value in place
(keeping its position), assignment to a fresh key appends, `pop` deletes. -/

abbrev Cache := List (String × LayerRecord)

/-- `layer_cache[k] = v` — dict assignment. -/
def cacheInsert (c : Cache) (k : String) (v : LayerRecord) : Cache :=
  if c.any (fun e => e.1 = k) then
    c.map (fun e => if e.1 = k then (k, v) else e)
  else
    c ++ [(k, v)]

/-- `layer_cache.pop(k, None)` — dict delete, no-op when absent. -/
def cacheRemove (c : Cache) (k : String) : Cache :=
  c.filter (fun e => e.1 ≠ k)

/-- `layer_cache.get(k)` — point lookup. -/
def cacheGet (c : Cache) (k : String) : Option LayerRecord :=
  (c.find? (fun e => e.1 = k)).map (fun e => e.2)

/-- `list(layer_cache.values())` — the materialized snapshot the query
surface iterates (app.py lines 257-260). -/
def snapshotAll (c : Cache) : List LayerRecord :=
  c.map (fun e => e.2)

/-- The cache invariant: keys are pairwise distinct and each entry is stored
under its record's `name` (every write site uses `d["name"]`/`Path(p).stem`,
which coincide). -/
def CacheInv (c : Cache) : Prop :=
  (c.map (fun e => e.1)).Nodup ∧ ∀ e ∈ c, e.1 = e.2.name

/-! ## The refresh orchestrator (app.py lines 105-117)

The filesystem under `DATA_DIR` is a list of files, each a chain of
subdirectory names plus a base name; `refresh_all` enumerates it with
`glob(DATA_DIR/"**/*.shp", recursive=True) + glob(DATA_DIR/"*.shp")`.
Per the Python glob documentation `**` matches zero or more directories, so
the recursive pattern already matches files directly under the root and the
second pattern matches exactly those again.  The `DATA_DIR` prefix is
omitted from modelled paths; it affects neither `stem` nor `endswith`. -/

/-- A file under the watched root: subdirectory chain and base name. -/
structure SrcFile where
  dirs : List String
  base : String
deriving DecidableEq, Repr

/-- The path string the globs return for a file (relative to the root). -/
def pathOf (f : SrcFile) : String :=
  String.intercalate "/" (f.dirs ++ [f.base])

/-- Whether a base name matches the `*.shp` pattern. -/
def isShp (f : SrcFile) : Bool := strEndsWith f.base ".shp"

/-- The `shps` list of app.py lines 106-107: recursive glob result ++ flat
glob result, both in filesystem order. -/
def enumerateShp (fs : List SrcFile) : List SrcFile :=
  fs.filter (fun f => isShp f) ++ fs.filter (fun f => f.dirs.isEmpty && isShp f)

/-- The loop body of app.py lines 110-115 folded over `enumerate(shps)`:
load each path, on success overwrite `style` with
`make_style(type, COLORS[i % len(COLORS)])` and assign into the dict. -/
def loopCache (fs : List SrcFile) (read_file : String → Option Gdf) (now : ℚ) : Cache :=
  (enumerateShp fs).enum.foldl
    (fun c p =>
      match load_shp read_file now (pathOf p.2) with
      | some d0 =>
          let d := { d0 with style := make_style d0.type (COLORS.getD (p.1 % COLORS.length) "") }
          cacheInsert c d.name d
      | none => c)
    []

/-! ## Sample fabrication (app.py lines 119-214) -/

/-- One entry of a sample layer's `features` list: `{"props": …, "coords": …}`. -/
structure RawFeature where
  props : List (String × PVal)
  coords : Coords
deriving DecidableEq, Repr

/-- One entry of the hard-coded `raw` list in `_load_samples`. -/
structure RawSample where
  name : String
  type : String
  color : String
  bounds : List ℚ
  fields : List String
  features : List RawFeature
deriving DecidableEq, Repr

/-- The nested `to_geojson` of `_load_samples` (app.py lines 193-202). -/
def to_geojson (d : RawSample) : GeoJson :=
  let geom_type :=
    if d.type = "polygon" then "Polygon"
    else if d.type = "polyline" then "LineString" else "Point"
  { features :=
      d.features.map (fun f => { properties := f.props
                                 geometry := { gtype := geom_type, coordinates := f.coords } }) }

/-- The hard-coded `raw` sample list (app.py lines 120-191), in source order. -/
def sampleRaw : List RawSample :=
  [{ name := "administrative_boundaries", type := "polygon", color := "#4FC3F7"
     bounds := [72.82, 18.97, 72.93, 19.08], fields := ["name", "population", "area_km2"]
     features :=
       [⟨[("name", PVal.str "District A"), ("population", PVal.num 45000), ("area_km2", PVal.num 12.5)],
         Coords.poly [[(72.82, 18.97), (72.87, 18.97), (72.87, 19.02), (72.82, 19.02), (72.82, 18.97)]]⟩,
        ⟨[("name", PVal.str "District B"), ("population", PVal.num 33000), ("area_km2", PVal.num 9.3)],
         Coords.poly [[(72.87, 18.97), (72.93, 18.97), (72.93, 19.02), (72.87, 19.02), (72.87, 18.97)]]⟩,
        ⟨[("name", PVal.str "District C"), ("population", PVal.num 62000), ("area_km2", PVal.num 15.1)],
         Coords.poly [[(72.82, 19.02), (72.93, 19.02), (72.93, 19.08), (72.82, 19.08), (72.82, 19.02)]]⟩] },
   { name := "buildings", type := "polygon", color := "#FFB74D"
     bounds := [72.832, 18.975, 72.890, 19.011], fields := ["id", "use", "floors", "year"]
     features :=
       [⟨[("id", PVal.str "B001"), ("use", PVal.str "Residential"), ("floors", PVal.num 4), ("year", PVal.num 2010)],
         Coords.poly [[(72.832, 18.975), (72.836, 18.975), (72.836, 18.979), (72.832, 18.979), (72.832, 18.975)]]⟩,
        ⟨[("id", PVal.str "B002"), ("use", PVal.str "Commercial"), ("floors", PVal.num 8), ("year", PVal.num 2015)],
         Coords.poly [[(72.841, 18.982), (72.846, 18.982), (72.846, 18.987), (72.841, 18.987), (72.841, 18.982)]]⟩,
        ⟨[("id", PVal.str "B003"), ("use", PVal.str "Industrial"), ("floors", PVal.num 2), ("year", PVal.num 2005)],
         Coords.poly [[(72.856, 18.990), (72.863, 18.990), (72.863, 18.996), (72.856, 18.996), (72.856, 18.990)]]⟩,
        ⟨[("id", PVal.str "B004"), ("use", PVal.str "Residential"), ("floors", PVal.num 5), ("year", PVal.num 2018)],
         Coords.poly [[(72.871, 18.978), (72.875, 18.978), (72.875, 18.983), (72.871, 18.983), (72.871, 18.978)]]⟩,
        ⟨[("id", PVal.str "B005"), ("use", PVal.str "Mixed Use"), ("floors", PVal.num 10), ("year", PVal.num 2020)],
         Coords.poly [[(72.884, 19.005), (72.890, 19.005), (72.890, 19.011), (72.884, 19.011), (72.884, 19.005)]]⟩] },
   { name := "land_use", type := "polygon", color := "#81C784"
     bounds := [72.825, 18.972, 72.890, 19.005], fields := ["category", "area_ha", "density"]
     features :=
       [⟨[("category", PVal.str "Residential"), ("area_ha", PVal.num 45.2), ("density", PVal.str "Medium")],
         Coords.poly [[(72.825, 18.972), (72.848, 18.972), (72.848, 18.990), (72.825, 18.990), (72.825, 18.972)]]⟩,
        ⟨[("category", PVal.str "Commercial"), ("area_ha", PVal.num 22.8), ("density", PVal.str "High")],
         Coords.poly [[(72.848, 18.972), (72.868, 18.972), (72.868, 18.990), (72.848, 18.990), (72.848, 18.972)]]⟩,
        ⟨[("category", PVal.str "Green Space"), ("area_ha", PVal.num 31.5), ("density", PVal.str "Low")],
         Coords.poly [[(72.868, 18.972), (72.890, 18.972), (72.890, 18.990), (72.868, 18.990), (72.868, 18.972)]]⟩,
        ⟨[("category", PVal.str "Industrial"), ("area_ha", PVal.num 18.0), ("density", PVal.str "Low")],
         Coords.poly [[(72.825, 18.990), (72.890, 18.990), (72.890, 19.005), (72.825, 19.005), (72.825, 18.990)]]⟩] },
   { name := "road_network", type := "polyline", color := "#90A4AE"
     bounds := [72.820, 18.972, 72.900, 19.030], fields := ["name", "class", "lanes"]
     features :=
       [⟨[("name", PVal.str "Main Road"), ("class", PVal.str "Primary"), ("lanes", PVal.num 4)],
         Coords.line [(72.820, 18.990), (72.840, 18.990), (72.860, 18.992), (72.880, 18.992), (72.900, 18.993)]⟩,
        ⟨[("name", PVal.str "North Avenue"), ("class", PVal.str "Secondary"), ("lanes", PVal.num 2)],
         Coords.line [(72.835, 18.972), (72.835, 18.990), (72.836, 19.010), (72.835, 19.030)]⟩,
        ⟨[("name", PVal.str "Cross Street"), ("class", PVal.str "Secondary"), ("lanes", PVal.num 2)],
         Coords.line [(72.820, 19.000), (72.840, 19.000), (72.860, 19.000), (72.880, 18.998)]⟩,
        ⟨[("name", PVal.str "East Road"), ("class", PVal.str "Collector"), ("lanes", PVal.num 2)],
         Coords.line [(72.860, 18.972), (72.862, 18.985), (72.865, 19.000), (72.868, 19.015)]⟩,
        ⟨[("name", PVal.str "West Link"), ("class", PVal.str "Local"), ("lanes", PVal.num 1)],
         Coords.line [(72.822, 18.980), (72.822, 18.995), (72.825, 19.010)]⟩] },
   { name := "water_supply", type := "polyline", color := "#4DD0E1"
     bounds := [72.825, 18.975, 72.878, 19.012], fields := ["pipe_id", "dia_mm", "material"]
     features :=
       [⟨[("pipe_id", PVal.str "WS-001"), ("dia_mm", PVal.num 300), ("material", PVal.str "DI")],
         Coords.line [(72.825, 18.980), (72.840, 18.980), (72.855, 18.981), (72.870, 18.982)]⟩,
        ⟨[("pipe_id", PVal.str "WS-002"), ("dia_mm", PVal.num 150), ("material", PVal.str "PVC")],
         Coords.line [(72.840, 18.975), (72.840, 18.988), (72.840, 19.000), (72.841, 19.012)]⟩,
        ⟨[("pipe_id", PVal.str "WS-003"), ("dia_mm", PVal.num 200), ("material", PVal.str "CI")],
         Coords.line [(72.855, 18.975), (72.860, 18.988), (72.862, 19.000)]⟩,
        ⟨[("pipe_id", PVal.str "WS-004"), ("dia_mm", PVal.num 100), ("material", PVal.str "PVC")],
         Coords.line [(72.870, 18.985), (72.875, 18.995), (72.878, 19.005)]⟩] },
   { name := "sewerage_network", type := "polyline", color := "#A1887F"
     bounds := [72.822, 18.978, 72.865, 19.005], fields := ["pipe_id", "dia_mm", "gradient"]
     features :=
       [⟨[("pipe_id", PVal.str "SW-001"), ("dia_mm", PVal.num 450), ("gradient", PVal.str "1:200")],
         Coords.line [(72.822, 18.985), (72.838, 18.985), (72.852, 18.986), (72.865, 18.987)]⟩,
        ⟨[("pipe_id", PVal.str "SW-002"), ("dia_mm", PVal.num 300), ("gradient", PVal.str "1:150")],
         Coords.line [(72.838, 18.978), (72.838, 18.990), (72.839, 19.003)]⟩,
        ⟨[("pipe_id", PVal.str "SW-003"), ("dia_mm", PVal.num 225), ("gradient", PVal.str "1:100")],
         Coords.line [(72.850, 18.978), (72.853, 18.992), (72.855, 19.005)]⟩] },
   { name := "chambers", type := "point", color := "#CE93D8"
     bounds := [72.835, 18.980, 72.880, 19.008], fields := ["id", "type", "depth_m", "condition"]
     features :=
       [⟨[("id", PVal.str "CH-001"), ("type", PVal.str "Inspection"), ("depth_m", PVal.num 2.5), ("condition", PVal.str "Good")],
         Coords.pt (72.835, 18.982)⟩,
        ⟨[("id", PVal.str "CH-002"), ("type", PVal.str "Junction"), ("depth_m", PVal.num 3.0), ("condition", PVal.str "Fair")],
         Coords.pt (72.845, 18.988)⟩,
        ⟨[("id", PVal.str "CH-003"), ("type", PVal.str "Inspection"), ("depth_m", PVal.num 2.0), ("condition", PVal.str "Good")],
         Coords.pt (72.858, 18.995)⟩,
        ⟨[("id", PVal.str "CH-004"), ("type", PVal.str "Terminal"), ("depth_m", PVal.num 4.0), ("condition", PVal.str "Poor")],
         Coords.pt (72.870, 18.980)⟩,
        ⟨[("id", PVal.str "CH-005"), ("type", PVal.str "Junction"), ("depth_m", PVal.num 2.8), ("condition", PVal.str "Good")],
         Coords.pt (72.880, 18.998)⟩,
        ⟨[("id", PVal.str "CH-006"), ("type", PVal.str "Inspection"), ("depth_m", PVal.num 2.2), ("condition", PVal.str "Good")],
         Coords.pt (72.840, 19.005)⟩] },
   { name := "utilities", type := "point", color := "#F06292"
     bounds := [72.832, 18.973, 72.884, 19.015], fields := ["id", "type", "status"]
     features :=
       [⟨[("id", PVal.str "HY-001"), ("type", PVal.str "Hydrant"), ("pressure_bar", PVal.num 4.5), ("status", PVal.str "Active")],
         Coords.pt (72.832, 18.978)⟩,
        ⟨[("id", PVal.str "HY-002"), ("type", PVal.str "Hydrant"), ("pressure_bar", PVal.num 4.2), ("status", PVal.str "Active")],
         Coords.pt (72.848, 18.985)⟩,
        ⟨[("id", PVal.str "VL-001"), ("type", PVal.str "Valve"), ("dia_mm", PVal.num 150), ("status", PVal.str "Open")],
         Coords.pt (72.862, 18.992)⟩,
        ⟨[("id", PVal.str "VL-002"), ("type", PVal.str "Valve"), ("dia_mm", PVal.num 200), ("status", PVal.str "Closed")],
         Coords.pt (72.875, 18.975)⟩,
        ⟨[("id", PVal.str "PS-001"), ("type", PVal.str "Pump Station"), ("capacity_kl", PVal.num 500), ("status", PVal.str "Active")],
         Coords.pt (72.884, 19.003)⟩,
        ⟨[("id", PVal.str "MH-001"), ("type", PVal.str "Manhole"), ("depth_m", PVal.num 3.5), ("status", PVal.str "Active")],
         Coords.pt (72.842, 19.008)⟩,
        ⟨[("id", PVal.str "MH-002"), ("type", PVal.str "Manhole"), ("depth_m", PVal.num 2.8), ("status", PVal.str "Active")],
         Coords.pt (72.856, 19.015)⟩,
        ⟨[("id", PVal.str "WT-001"), ("type", PVal.str "Water Tower"), ("capacity_kl", PVal.num 500), ("status", PVal.str "Active")],
         Coords.pt (72.865, 18.973)⟩] }]

/-- The record `_load_samples` installs for one `raw` entry (app.py lines
206-213).  In the source `loaded_at` is a fresh `time.time()` per record;
the whole loop runs at one modelled instant `now`. -/
def sampleRec (d : RawSample) (now : ℚ) : LayerRecord :=
  { name := d.name, type := d.type
    geojson := to_geojson d
    bounds := d.bounds, count := d.features.length
    fields := d.fields, style := make_style d.type d.color
    file_path := none, loaded_at := now }

/-- `_load_samples` (app.py lines 204-213): insert each sample record into
the (empty at that point) cache, in `raw` order. -/
def load_samples (c : Cache) (now : ℚ) : Cache :=
  sampleRaw.foldl (fun c d => cacheInsert c d.name (sampleRec d now)) c

/-- `refresh_all` (app.py lines 105-117): rebuild the cache from the
enumerated files; if it came out empty, install the samples (into that
empty cache). -/
def refresh_all (fs : List SrcFile) (read_file : String → Option Gdf) (now : ℚ) : Cache :=
  if (loopCache fs read_file now).isEmpty then
    load_samples (loopCache fs read_file now) now
  else
    loopCache fs read_file now

/-! ## The change watcher (app.py lines 216-244)

`SHPHandler` keeps `_timers : dict path → Timer`.  Timers are modelled as the
set of armed paths with their delays; arming replaces (cancels) any previous
timer for the same path. -/

/-- The watcher's `_timers` dict: armed debounce timers, path → delay. -/
abbrev Timers := List (String × ℚ)

/-- `timers[path] = t` with dict semantics (the old timer for the path, if
any, was cancelled and replaced). -/
def timerSet (ts : Timers) (path : String) (delay : ℚ) : Timers :=
  if ts.any (fun e => e.1 = path) then
    ts.map (fun e => if e.1 = path then (path, delay) else e)
  else
    ts ++ [(path, delay)]

/-- `SHPHandler._debounce` (app.py lines 220-226): for a `.shp` path, cancel
any pending timer and arm a fresh one; other paths are ignored. -/
def shp_debounce (ts : Timers) (path : String) (delay : ℚ) : Timers :=
  if strEndsWith path ".shp" then timerSet ts path delay else ts

/-- `SHPHandler._reload` (app.py lines 227-236): the debounce timer fired.
Load the path (outside the lock); on success overwrite `style` with the
color at index `len(layer_cache) % len(COLORS)` and assign under the path's
stem; on failure pop the stem. -/
def shp_reload (read_file : String → Option Gdf) (now : ℚ) (path : String)
    (c : Cache) : Cache :=
  match load_shp read_file now path with
  | some d0 =>
      cacheInsert c (stem path)
        { d0 with style := make_style d0.type (COLORS.getD (c.length % COLORS.length) "") }
  | none => cacheRemove c (stem path)

/-- `SHPHandler.on_created` / `on_modified` (app.py lines 237-240): debounce
non-directory events; the cache is untouched. -/
def on_changed (ts : Timers) (isDir : Bool) (src_path : String) (delay : ℚ) : Timers :=
  if !isDir then shp_debounce ts src_path delay else ts

/-- `SHPHandler.on_deleted` (app.py lines 241-244): for a non-directory
`.shp` path, pop the stem from the cache at once; timers are untouched and
no load happens. -/
def on_deleted (ts : Timers) (c : Cache) (isDir : Bool) (src_path : String) :
    Timers × Cache :=
  if !isDir && strEndsWith src_path ".shp" then
    (ts, cacheRemove c (stem src_path))
  else
    (ts, c)

/-! ## Lock/loader event traces of `refresh_all`

For the claims about the lock discipline, `refresh_all` is instrumented with
the sequence of lock acquisitions/releases and loader invocations it
performs, read off app.py lines 105-117 and 204-213:
`with cache_lock:` wraps the whole enumeration loop (each iteration calling
`load_shp`), and `_load_samples` takes the lock once more and performs no
loader calls. -/

/-- An instrumentation event: lock acquired, lock released, or the loader
invoked on a path. -/
inductive Ev where
  | acq
  | rel
  | load (path : String)
deriving DecidableEq, Repr

/-- Pair every event with the lock depth at which it occurs (depth before
the event is processed; `0` = lock free). -/
def annotate : Nat → List Ev → List (Nat × Ev)
  | _, [] => []
  | d, Ev.acq :: es => (d, Ev.acq) :: annotate (d + 1) es
  | d, Ev.rel :: es => (d, Ev.rel) :: annotate (d - 1) es
  | d, Ev.load p :: es => (d, Ev.load p) :: annotate d es

/-- The event trace of `refresh_all`: acquire, one loader call per
enumerated path (inside the critical section), release; then, when the loop
produced nothing, the `_load_samples` critical section. -/
def refresh_trace (fs : List SrcFile) (read_file : String → Option Gdf) (now : ℚ) :
    List Ev :=
  [Ev.acq] ++ (enumerateShp fs).map (fun f => Ev.load (pathOf f)) ++ [Ev.rel]
    ++ (if (loopCache fs read_file now).isEmpty then [Ev.acq, Ev.rel] else [])

/-! ## Cache operation lemmas -/

@[simp] theorem cacheGet_nil (k : String) : cacheGet [] k = none := rfl

@[simp] theorem cacheGet_cons (e : String × LayerRecord) (t : Cache) (k : String) :
    cacheGet (e :: t) k = if e.1 = k then some e.2 else cacheGet t k := by
  by_cases he : e.1 = k
  · unfold cacheGet
    rw [List.find?_cons_of_pos _ (by simpa using he), if_pos he]
    rfl
  · unfold cacheGet
    rw [List.find?_cons_of_neg _ (by simpa using he), if_neg he]

theorem cacheGet_insert_self (c : Cache) (k : String) (v : LayerRecord) :
    cacheGet (cacheInsert c k v) k = some v := by
  unfold cacheInsert
  by_cases h : c.any (fun e => e.1 = k) = true
  · simp only [h, if_true]
    induction c with
    | nil => simp at h
    | cons e t ih =>
        simp only [List.any_cons, Bool.or_eq_true_iff] at h
        by_cases he : e.1 = k
        · simp [he]
        · have ht : t.any (fun e => e.1 = k) = true := by
            rcases h with h1 | h1
            · exact absurd (of_decide_eq_true h1) he
            · exact h1
          simpa [he] using ih ht
  · simp only [h, if_false]
    induction c with
    | nil => simp
    | cons e t ih =>
        simp only [List.any_cons, Bool.or_eq_true_iff, not_or] at h
        have he : ¬ e.1 = k := fun hh => h.1 (decide_eq_true hh)
        have ht : ¬ t.any (fun e => e.1 = k) = true := h.2
        simpa [he] using ih ht

theorem cacheGet_insert_ne (c : Cache) (k k' : String) (v : LayerRecord)
    (hne : k' ≠ k) : cacheGet (cacheInsert c k v) k' = cacheGet c k' := by
  have hkk : ¬ ((k : String) = k') := fun hh => hne hh.symm
  unfold cacheInsert
  by_cases h : c.any (fun e => e.1 = k) = true
  · simp only [h, if_true]
    clear h
    induction c with
    | nil => rfl
    | cons e t ih =>
        by_cases he : e.1 = k
        · have he2 : ¬ (e.1 = k') := by rw [he]; exact hkk
          simpa [he, he2, hkk] using ih
        · by_cases he2 : e.1 = k'
          · simp [he, he2, hne]
          · simpa [he, he2] using ih
  · simp only [h, if_false]
    clear h
    induction c with
    | nil => simp [hkk]
    | cons e t ih =>
        by_cases he2 : e.1 = k'
        · simp [he2]
        · simpa [he2] using ih

theorem cacheGet_remove_self (c : Cache) (k : String) :
    cacheGet (cacheRemove c k) k = none := by
  unfold cacheRemove
  induction c with
  | nil => rfl
  | cons e t ih =>
      by_cases he : e.1 = k
      · simpa [List.filter_cons, he] using ih
      · simpa [List.filter_cons, he] using ih

theorem cacheGet_remove_ne (c : Cache) (k k' : String) (hne : k' ≠ k) :
    cacheGet (cacheRemove c k) k' = cacheGet c k' := by
  have hkk : ¬ ((k : String) = k') := fun hh => hne hh.symm
  unfold cacheRemove
  induction c with
  | nil => rfl
  | cons e t ih =>
      by_cases he : e.1 = k
      · simpa [List.filter_cons, he, hkk] using ih
      · by_cases he2 : e.1 = k'
        · simp [List.filter_cons, he, he2, hne]
        · simpa [List.filter_cons, he, he2] using ih

theorem keys_insert (c : Cache) (k : String) (v : LayerRecord) :
    (cacheInsert c k v).map (fun e => e.1)
      = if c.any (fun e => e.1 = k) then c.map (fun e => e.1)
        else c.map (fun e => e.1) ++ [k] := by
  unfold cacheInsert
  by_cases h : c.any (fun e => e.1 = k) = true
  · simp only [h, if_true, List.map_map]
    apply List.map_congr_left
    intro e _
    by_cases he : e.1 = k <;> simp [he]
  · simp [h]

theorem cacheInv_nil : CacheInv [] := ⟨List.nodup_nil, by intro e he; cases he⟩

theorem cacheInv_insert (c : Cache) (v : LayerRecord) (hc : CacheInv c) :
    CacheInv (cacheInsert c v.name v) := by
  constructor
  · rw [keys_insert]
    by_cases h : c.any (fun e => e.1 = v.name) = true
    · simpa [h] using hc.1
    · simp only [h, if_false]
      have hnin : v.name ∉ c.map (fun e => e.1) := by
        intro hin
        rcases List.mem_map.mp hin with ⟨e, he, hek⟩
        exact h (List.any_eq_true.mpr ⟨e, he, decide_eq_true (by simpa using hek)⟩)
      refine List.Nodup.append hc.1 (List.nodup_singleton _) ?_
      intro x hx hx2
      rw [List.mem_singleton.mp hx2] at hx
      exact hnin hx
  · intro e he
    unfold cacheInsert at he
    by_cases h : c.any (fun e => e.1 = v.name) = true
    · simp only [h, if_true] at he
      rcases List.mem_map.mp he with ⟨e0, he0, heq⟩
      by_cases h0 : e0.1 = v.name
      · simp only [h0, if_true] at heq
        rw [← heq]
      · simp only [h0, if_false] at heq
        rw [← heq]; exact hc.2 e0 he0
    · simp only [h, if_false] at he
      rcases List.mem_append.mp he with he | he
      · exact hc.2 e he
      · rw [List.mem_singleton.mp he]

theorem cacheInv_remove (c : Cache) (k : String) (hc : CacheInv c) :
    CacheInv (cacheRemove c k) := by
  constructor
  · exact hc.1.sublist ((List.filter_sublist c).map (fun e => e.1))
  · intro e he
    exact hc.2 e (List.mem_of_mem_filter he)

theorem find?_eq_of_mem_nodup (c : Cache) (hk : (c.map (fun e => e.1)).Nodup)
    (e : String × LayerRecord) (he : e ∈ c) :
    c.find? (fun x => x.1 = e.1) = some e := by
  induction c with
  | nil => cases he
  | cons a t ih =>
      rcases List.mem_cons.mp he with rfl | het
      · simp [List.find?]
      · have ha : ¬ (a.1 = e.1) := by
          intro hh
          have : e.1 ∈ t.map (fun x => x.1) := List.mem_map.mpr ⟨e, het, rfl⟩
          rw [← hh] at this
          exact (List.nodup_cons.mp (by simpa using hk)).1 this
        simp only [List.find?, ha]
        simpa [ha] using ih (List.nodup_cons.mp (by simpa using hk)).2 het

theorem mem_snapshot_iff (c : Cache) (hc : CacheInv c) (r : LayerRecord) :
    r ∈ snapshotAll c ↔ cacheGet c r.name = some r := by
  constructor
  · intro hr
    rcases List.mem_map.mp hr with ⟨e, he, hre⟩
    have hk : e.1 = r.name := by rw [hc.2 e he, hre]
    have := find?_eq_of_mem_nodup c hc.1 e he
    rw [hk] at this
    simp [cacheGet, this, hre]
  · intro hr
    unfold cacheGet at hr
    rcases Option.map_eq_some'.mp hr with ⟨e, he, hre⟩
    exact List.mem_map.mpr ⟨e, List.mem_of_find?_eq_some he, hre⟩

/-! ## C1: sequences of cache operations -/

/-- A single cache mutation, as issued by the refresh orchestrator
(`replaceAll` = the clear-and-rebuild of `refresh_all`) and the watcher
(`upsert` = `layer_cache[name] = d`, `remove` = `layer_cache.pop(name)`). -/
inductive Op where
  | upsert (r : LayerRecord)
  | remove (name : String)
  | replaceAll (rs : List LayerRecord)

/-- Apply one operation to the cache, exactly as the dict is mutated in the
source: assignment, pop, or clear-then-assign-each. -/
def applyOp (c : Cache) : Op → Cache
  | Op.upsert r => cacheInsert c r.name r
  | Op.remove n => cacheRemove c n
  | Op.replaceAll rs => rs.foldl (fun c r => cacheInsert c r.name r) []

/-- Apply a call sequence to the initially empty cache, in call order. -/
def applyOps (ops : List Op) : Cache := ops.foldl applyOp []

/-- Modelled from the spec: the entry the sequence "implies" for a key —
the last record in `rs` with the given name. -/
def lastWins (rs : List LayerRecord) (k : String) : Option LayerRecord :=
  rs.foldl (fun acc r => if r.name = k then some r else acc) none

/-- Modelled from the spec: one operation's effect on the implied
key → record mapping (an upsert replaces the entry for its name entirely,
a remove deletes it, a replaceAll starts over from the given set). -/
def stepDenote (f : String → Option LayerRecord) : Op → String → Option LayerRecord
  | Op.upsert r => fun k => if r.name = k then some r else f k
  | Op.remove n => fun k => if n = k then none else f k
  | Op.replaceAll rs => fun k => lastWins rs k

/-- Modelled from the spec: the key → record mapping implied by applying the
call sequence in order to an empty store. -/
def specDenote (ops : List Op) : String → Option LayerRecord :=
  ops.foldl stepDenote (fun _ => none)

theorem get_replace_fold (rs : List LayerRecord) (c0 : Cache) (k : String) :
    cacheGet (rs.foldl (fun c r => cacheInsert c r.name r) c0) k
      = rs.foldl (fun acc r => if r.name = k then some r else acc) (cacheGet c0 k) := by
  induction rs generalizing c0 with
  | nil => rfl
  | cons r rs ih =>
      simp only [List.foldl_cons]
      rw [ih]
      by_cases hk : r.name = k
      · rw [hk, cacheGet_insert_self]
        simp [hk]
      · rw [cacheGet_insert_ne c0 r.name k r (fun hh => hk hh.symm)]
        simp [hk]

theorem inv_replace_fold (rs : List LayerRecord) (c0 : Cache) (hc : CacheInv c0) :
    CacheInv (rs.foldl (fun c r => cacheInsert c r.name r) c0) := by
  induction rs generalizing c0 with
  | nil => exact hc
  | cons r rs ih => exact ih _ (cacheInv_insert c0 r hc)

theorem inv_applyOp (c : Cache) (op : Op) (hc : CacheInv c) :
    CacheInv (applyOp c op) := by
  cases op with
  | upsert r => exact cacheInv_insert c r hc
  | remove n => exact cacheInv_remove c n hc
  | replaceAll rs => exact inv_replace_fold rs [] cacheInv_nil

theorem get_applyOp (c : Cache) (op : Op) (k : String) :
    cacheGet (applyOp c op) k = stepDenote (cacheGet c) op k := by
  cases op with
  | upsert r =>
      simp only [applyOp, stepDenote]
      by_cases hk : r.name = k
      · rw [hk, cacheGet_insert_self, if_pos rfl]
      · rw [cacheGet_insert_ne c r.name k r (fun hh => hk hh.symm), if_neg hk]
  | remove n =>
      simp only [applyOp, stepDenote]
      by_cases hk : n = k
      · rw [hk, cacheGet_remove_self, if_pos rfl]
      · rw [cacheGet_remove_ne c n k (fun hh => hk hh.symm), if_neg hk]
  | replaceAll rs =>
      simp only [applyOp, stepDenote]
      have := get_replace_fold rs [] k
      simpa [lastWins] using this

theorem applyOps_from (ops : List Op) :
    ∀ c, CacheInv c →
      CacheInv (ops.foldl applyOp c) ∧
      ∀ k, cacheGet (ops.foldl applyOp c) k = ops.foldl stepDenote (cacheGet c) k := by
  induction ops with
  | nil => exact fun c hc => ⟨hc, fun k => rfl⟩
  | cons op ops ih =>
      intro c hc
      have hstep : cacheGet (applyOp c op) = stepDenote (cacheGet c) op :=
        funext (get_applyOp c op)
      rcases ih (applyOp c op) (inv_applyOp c op hc) with ⟨hinv, hget⟩
      refine ⟨by simpa using hinv, ?_⟩
      intro k
      have := hget k
      simpa [hstep] using this

/-- C1: applying any finite sequence of `upsert`/`remove`/`replaceAll`
calls to an initially empty cache, `snapshotAll` returns exactly the
entries implied by the sequence in call order: keys are unique, an upsert
whose record name equals an existing key replaces that entry entirely, and
a record is in the snapshot iff it is the sequence-implied entry for its
name (nothing lost, nothing duplicated). -/
theorem cache_sequence_spec (ops : List Op) :
    ((applyOps ops).map (fun e => e.1)).Nodup ∧
    (∀ k, cacheGet (applyOps ops) k = specDenote ops k) ∧
    (∀ r : LayerRecord, r ∈ snapshotAll (applyOps ops) ↔ specDenote ops r.name = some r) := by
  rcases applyOps_from ops [] cacheInv_nil with ⟨hinv, hget⟩
  have hinv' : CacheInv (applyOps ops) := hinv
  have hg : ∀ k, cacheGet (applyOps ops) k = specDenote ops k := fun k => hget k
  refine ⟨hinv'.1, hg, fun r => ?_⟩
  rw [mem_snapshot_iff _ hinv' r, hg r.name]

/-! ## C2: `refresh()` is deterministic up to `loaded_at`

With an unchanged source directory (same filesystem listing, same external
reader) two `refresh_all` runs can differ only through `time.time()`; the
claim's "same names, same styles, same geometry" is the cache equality after
erasing the `loaded_at` timestamp. -/

/-- Erase the wall-clock timestamp of a record. -/
def stripTime (r : LayerRecord) : LayerRecord := { r with loaded_at := 0 }

/-- Erase the timestamps of a whole cache. -/
def stripC (c : Cache) : Cache := c.map (fun e => (e.1, stripTime e.2))

theorem stripC_insert (c : Cache) (k : String) (v : LayerRecord) :
    stripC (cacheInsert c k v) = cacheInsert (stripC c) k (stripTime v) := by
  unfold cacheInsert stripC
  have hany : (c.map (fun e => (e.1, stripTime e.2))).any (fun e => e.1 = k)
      = c.any (fun e => e.1 = k) := by
    rw [List.any_map]
    rfl
  rw [hany]
  by_cases h : c.any (fun e => e.1 = k) = true
  · simp only [h, if_true, List.map_map]
    apply List.map_congr_left
    intro e _
    by_cases he : e.1 = k <;> simp [he]
  · simp [h]

theorem stripC_eq_nil_iff (c : Cache) : stripC c = [] ↔ c = [] := by
  unfold stripC
  simp

theorem load_shp_strip (read_file : String → Option Gdf) (t1 t2 : ℚ) (p : String) :
    (load_shp read_file t1 p).map stripTime = (load_shp read_file t2 p).map stripTime := by
  unfold load_shp
  cases read_file p <;> rfl

theorem loop_step_strip (read_file : String → Option Gdf) (t1 t2 : ℚ)
    (l : List (Nat × SrcFile)) :
    ∀ c1 c2, stripC c1 = stripC c2 →
      stripC (l.foldl
        (fun c p =>
          match load_shp read_file t1 (pathOf p.2) with
          | some d0 =>
              let d := { d0 with style := make_style d0.type (COLORS.getD (p.1 % COLORS.length) "") }
              cacheInsert c d.name d
          | none => c) c1)
      = stripC (l.foldl
        (fun c p =>
          match load_shp read_file t2 (pathOf p.2) with
          | some d0 =>
              let d := { d0 with style := make_style d0.type (COLORS.getD (p.1 % COLORS.length) "") }
              cacheInsert c d.name d
          | none => c) c2) := by
  induction l with
  | nil => exact fun c1 c2 h => h
  | cons p l ih =>
      intro c1 c2 h
      simp only [List.foldl_cons]
      apply ih
      cases hrf : read_file (pathOf p.2) with
      | none =>
          simp only [load_shp, hrf]
          exact h
      | some gdf =>
          simp only [load_shp, hrf]
          rw [stripC_insert, stripC_insert, h]
          rfl

theorem loopCache_strip (fs : List SrcFile) (read_file : String → Option Gdf)
    (t1 t2 : ℚ) :
    stripC (loopCache fs read_file t1) = stripC (loopCache fs read_file t2) := by
  unfold loopCache
  exact loop_step_strip read_file t1 t2 _ [] [] rfl

theorem load_samples_strip (t1 t2 : ℚ) :
    ∀ (l : List RawSample) (c1 c2 : Cache), stripC c1 = stripC c2 →
      stripC (l.foldl (fun c d => cacheInsert c d.name (sampleRec d t1)) c1)
        = stripC (l.foldl (fun c d => cacheInsert c d.name (sampleRec d t2)) c2) := by
  intro l
  induction l with
  | nil => exact fun c1 c2 h => h
  | cons d l ih =>
      intro c1 c2 h
      simp only [List.foldl_cons]
      apply ih
      rw [stripC_insert, stripC_insert, h]
      rfl

/-- C2: `refresh()` is idempotent for a fixed source directory: two runs
that differ only in wall-clock time produce the same set of layer names and,
for each name, the same record up to `loaded_at` — in particular the same
style (color included) and the same geometry — because enumeration order,
hence color assignment, is a function of the directory alone. -/
theorem refresh_idempotent (fs : List SrcFile) (read_file : String → Option Gdf)
    (t1 t2 : ℚ) :
    (refresh_all fs read_file t1).map (fun e => e.1)
      = (refresh_all fs read_file t2).map (fun e => e.1) ∧
    stripC (refresh_all fs read_file t1) = stripC (refresh_all fs read_file t2) := by
  have hloop := loopCache_strip fs read_file t1 t2
  have hstrip : stripC (refresh_all fs read_file t1) = stripC (refresh_all fs read_file t2) := by
    unfold refresh_all
    by_cases h : loopCache fs read_file t1 = []
    · have h2 : loopCache fs read_file t2 = [] := by
        rw [← stripC_eq_nil_iff, ← hloop, stripC_eq_nil_iff]
        exact h
      simp only [h, h2, List.isEmpty_nil, if_true]
      exact load_samples_strip t1 t2 sampleRaw [] [] rfl
    · have h2 : ¬ loopCache fs read_file t2 = [] := by
        rw [← stripC_eq_nil_iff, ← hloop, stripC_eq_nil_iff]
        exact h
      simp only [List.isEmpty_eq_true]
      rw [if_neg h, if_neg h2]
      exact hloop
  refine ⟨?_, hstrip⟩
  have : ∀ c : Cache, c.map (fun e => e.1) = (stripC c).map (fun e => e.1) := by
    intro c
    unfold stripC
    rw [List.map_map]
    rfl
  rw [this (refresh_all fs read_file t1), hstrip, ← this (refresh_all fs read_file t2)]

/-! ## C3: when the sample fallback fires

`refresh_all` installs the samples when `layer_cache` is empty after the
loop — i.e. when *no file loaded successfully*, not when no file was found:
an enumerated file whose load fails still triggers the fallback. -/

theorem cacheInsert_ne_nil (c : Cache) (k : String) (v : LayerRecord) :
    cacheInsert c k v ≠ [] := by
  unfold cacheInsert
  by_cases h : c.any (fun e => e.1 = k) = true
  · simp only [h, if_true]
    intro hmap
    rw [List.map_eq_nil_iff] at hmap
    rw [hmap] at h
    simp at h
  · simp [h]

theorem load_shp_none_iff (read_file : String → Option Gdf) (now : ℚ) (p : String) :
    load_shp read_file now p = none ↔ read_file p = none := by
  unfold load_shp
  cases read_file p <;> simp

theorem loop_fold_eq_nil_iff (read_file : String → Option Gdf) (now : ℚ)
    (l : List (Nat × SrcFile)) :
    ∀ c : Cache,
      (l.foldl
        (fun c p =>
          match load_shp read_file now (pathOf p.2) with
          | some d0 =>
              let d := { d0 with style := make_style d0.type (COLORS.getD (p.1 % COLORS.length) "") }
              cacheInsert c d.name d
          | none => c) c) = []
      ↔ c = [] ∧ ∀ p ∈ l, read_file (pathOf p.2) = none := by
  induction l with
  | nil => intro c; simp
  | cons p l ih =>
      intro c
      simp only [List.foldl_cons]
      cases hl : load_shp read_file now (pathOf p.2) with
      | some d0 =>
          rw [ih]
          constructor
          · intro h
            exact absurd h.1 (cacheInsert_ne_nil _ _ _)
          · rintro ⟨-, hall⟩
            have := hall p (List.mem_cons_self p l)
            rw [(load_shp_none_iff read_file now (pathOf p.2)).mpr this] at hl
            cases hl
      | none =>
        rw [ih]
        have hp : read_file (pathOf p.2) = none :=
          (load_shp_none_iff read_file now (pathOf p.2)).mp hl
        constructor
        · rintro ⟨hc, hall⟩
          refine ⟨hc, fun q hq => ?_⟩
          rcases List.mem_cons.mp hq with rfl | hq
          · exact hp
          · exact hall q hq
        · rintro ⟨hc, hall⟩
          exact ⟨hc, fun q hq => hall q (List.mem_cons_of_mem p hq)⟩

theorem loopCache_eq_nil_iff (fs : List SrcFile) (read_file : String → Option Gdf)
    (now : ℚ) :
    loopCache fs read_file now = [] ↔ ∀ f ∈ enumerateShp fs, read_file (pathOf f) = none := by
  unfold loopCache
  rw [loop_fold_eq_nil_iff]
  constructor
  · intro h f hf
    have : ∀ p ∈ (enumerateShp fs).enum, read_file (pathOf p.2) = none := h.2
    have hmem : f ∈ (enumerateShp fs).enum.map Prod.snd := by
      rw [List.enum_map_snd]
      exact hf
    rcases List.mem_map.mp hmem with ⟨p, hp, rfl⟩
    exact this p hp
  · intro h
    refine ⟨rfl, fun p hp => ?_⟩
    apply h
    have : p.2 ∈ (enumerateShp fs).enum.map Prod.snd := List.mem_map.mpr ⟨p, hp, rfl⟩
    rwa [List.enum_map_snd] at this

/-- C3 (amended): the sample fallback fires exactly when *no enumerated file
loads successfully* — equivalently, the post-loop cache is empty.  The
zero-files-found case is one instance; a directory whose only source files
all fail to load also triggers the fallback, so the original "never when at
least one source file exists on disk" is false. -/
theorem sample_fallback_characterization (fs : List SrcFile)
    (read_file : String → Option Gdf) (now : ℚ) :
    (loopCache fs read_file now = []
        ↔ ∀ f ∈ enumerateShp fs, read_file (pathOf f) = none) ∧
    refresh_all fs read_file now
      = if (enumerateShp fs).all (fun f => (read_file (pathOf f)).isNone)
        then load_samples [] now
        else loopCache fs read_file now := by
  refine ⟨loopCache_eq_nil_iff fs read_file now, ?_⟩
  unfold refresh_all
  by_cases h : loopCache fs read_file now = []
  · have hall : (enumerateShp fs).all (fun f => (read_file (pathOf f)).isNone) = true := by
      rw [List.all_eq_true]
      intro f hf
      rw [Option.isNone_iff_eq_none]
      exact (loopCache_eq_nil_iff fs read_file now).mp h f hf
    rw [h, hall]
    simp
  · have hall : ¬ (enumerateShp fs).all (fun f => (read_file (pathOf f)).isNone) = true := by
      intro hh
      apply h
      rw [loopCache_eq_nil_iff]
      intro f hf
      rw [← Option.isNone_iff_eq_none]
      exact List.all_eq_true.mp hh f hf
    rw [if_neg hall]
    have hemp : (loopCache fs read_file now).isEmpty = false := by
      cases hc : loopCache fs read_file now with
      | nil => exact absurd hc h
      | cons e t => rfl
    rw [hemp]
    simp

/-- C3 counterexample: a watched tree containing one real source file
(`sub/broken.shp`) whose load fails still gets the full hard-coded sample
set — the fallback fires although a source file exists on disk, refuting
"never when at least one source file exists". -/
theorem sample_fallback_despite_source :
    enumerateShp [⟨["sub"], "broken.shp"⟩] = [⟨["sub"], "broken.shp"⟩] ∧
    refresh_all [⟨["sub"], "broken.shp"⟩] (fun _ => none) 0 = load_samples [] 0 ∧
    (load_samples [] 0).map (fun e => e.1)
      = ["administrative_boundaries", "buildings", "land_use", "road_network",
         "water_supply", "sewerage_network", "chambers", "utilities"] :=
  ⟨rfl, rfl, rfl⟩

/-! ## C4: enumeration does *not* deduplicate overlapping glob patterns

`refresh_all` concatenates the recursive and the flat glob result without
removing duplicates, and the loop loads every element of that list, so a
`.shp` directly under the root is loaded twice and advances the palette
index twice. -/

/-- A concrete external reader used in counterexamples and witnesses: every
path parses to a one-feature point layer with columns `id, geometry`. -/
def rfPoint : String → Option Gdf :=
  fun _ => some { geomTypes := ["Point"], columns := ["id", "geometry"],
                  geojson := ⟨[]⟩, bounds := [0, 0, 1, 1] }

/-- C4 (amended): enumeration does not skip duplicates.  A `.shp` file
directly under the watched root is matched by both glob patterns and occurs
exactly *twice* in the load list (the loop then loads it twice and it
consumes two palette indices); a `.shp` in a subdirectory occurs once; a
non-`.shp` file occurs not at all.  Cache keys still end up unique because
the second load overwrites the first under the same name. -/
theorem enumeration_multiplicity (fs : List SrcFile) (f : SrcFile) :
    (enumerateShp fs).count f
      = (if isShp f then (if f.dirs.isEmpty then 2 else 1) else 0) * fs.count f := by
  unfold enumerateShp
  rw [List.count_append]
  by_cases hshp : isShp f = true
  · by_cases hroot : f.dirs.isEmpty = true
    · rw [List.count_filter (by simpa using hshp),
        List.count_filter (by simp [hroot, hshp]), hshp, hroot]
      simp [two_mul]
    · rw [List.count_filter (by simpa using hshp)]
      have h2 : f ∉ fs.filter (fun g => g.dirs.isEmpty && isShp g) := by
        intro hmem
        have := (List.mem_filter.mp hmem).2
        simp [hroot] at this
      rw [List.count_eq_zero_of_not_mem h2, hshp]
      simp [hroot]
  · have h1 : f ∉ fs.filter (fun g => isShp g) := by
      intro hmem
      exact hshp (by simpa using (List.mem_filter.mp hmem).2)
    have h2 : f ∉ fs.filter (fun g => g.dirs.isEmpty && isShp g) := by
      intro hmem
      have := (List.mem_filter.mp hmem).2
      simp [hshp] at this
    rw [List.count_eq_zero_of_not_mem h1, List.count_eq_zero_of_not_mem h2]
    simp [hshp]

/-- C4 counterexample: with the single file `roads.shp` at the root of the
watched tree, enumeration lists the same path twice, so the file is loaded
twice in one refresh (refuting "loaded at most once"), and the surviving
cache record carries the color of palette index 1, not index 0 (refuting
"contributes exactly one palette index"). -/
theorem duplicate_enumeration_counterexample :
    List.count (⟨[], "roads.shp"⟩ : SrcFile) (enumerateShp [⟨[], "roads.shp"⟩]) = 2 ∧
    (cacheGet (refresh_all [⟨[], "roads.shp"⟩] rfPoint 0) "roads").map
        (fun r => r.style)
      = some (make_style "polyline" "#81C784") ∧
    COLORS.getD 1 "" = "#81C784" ∧ COLORS.getD 0 "" = "#4FC3F7" :=
  ⟨by decide, rfl, rfl, rfl⟩

/-! ## C5 and C10: geometry-kind inference -/

theorem find?_eq_of_first {α : Type} (p : α → Bool) :
    ∀ (l : List α) (i : Nat) (e : α), l.get? i = some e → p e = true →
      ((l.take i).all (fun x => !(p x))) = true → l.find? p = some e := by
  intro l
  induction l with
  | nil => intro i e hi; cases i <;> cases hi
  | cons a t ih =>
      intro i e hi hp htake
      cases i with
      | zero =>
          cases hi
          rw [List.find?_cons_of_pos _ hp]
      | succ i =>
          simp only [List.take_succ_cons, List.all_cons, Bool.and_eq_true] at htake
          have hpa : ¬ p a = true := by
            intro hh
            rw [hh] at htake
            exact absurd htake.1 (by simp)
          rw [List.find?_cons_of_neg _ hpa]
          exact ih i e hi hp htake.2

theorem find?_eq_none_of_all {α : Type} (p : α → Bool) (l : List α)
    (h : ∀ x ∈ l, p x = false) : l.find? p = none := by
  rw [List.find?_eq_none]
  intro x hx
  rw [h x hx]
  simp

/-- C5: geometry-kind inference gives the name-keyword table strict
precedence over geometry introspection.  (1) If the entry at index `i` of
`NAME_TYPE` matches the lowercased name as a substring while no earlier
entry does, `detect_type` returns that entry's kind for *every* geometry
argument — the features are never consulted.  (2) If no keyword matches,
the first feature's geometry type is looked up in `GEOM_MAP`.  (3) If no
keyword matches and the source has zero features, the result is
`"polygon"`. -/
theorem detect_type_precedence (name : String) (gdf : Gdf) :
    (∀ i k v, NAME_TYPE.get? i = some (k, v) →
      isSubstr k (strLower name) = true →
      ((NAME_TYPE.take i).all (fun kv => !(isSubstr kv.1 (strLower name)))) = true →
      ∀ g : Option Gdf, detect_type name g = v) ∧
    ((∀ kv ∈ NAME_TYPE, isSubstr kv.1 (strLower name) = false) →
      ∀ gt rest, gdf.geomTypes = gt :: rest →
        detect_type name (some gdf) = geomMapGet gt) ∧
    ((∀ kv ∈ NAME_TYPE, isSubstr kv.1 (strLower name) = false) →
      gdf.geomTypes = [] → detect_type name (some gdf) = "polygon") := by
  refine ⟨?_, ?_, ?_⟩
  · intro i k v hi hk htake g
    have hfind : NAME_TYPE.find? (fun kv => isSubstr kv.1 (strLower name)) = some (k, v) :=
      find?_eq_of_first _ NAME_TYPE i (k, v) hi (by simpa using hk) htake
    simp only [detect_type]
    rw [hfind]
  · intro hnone gt rest hgt
    have hfind : NAME_TYPE.find? (fun kv => isSubstr kv.1 (strLower name)) = none :=
      find?_eq_none_of_all _ _ hnone
    simp only [detect_type]
    rw [hfind, hgt]
  · intro hnone hgt
    have hfind : NAME_TYPE.find? (fun kv => isSubstr kv.1 (strLower name)) = none :=
      find?_eq_none_of_all _ _ hnone
    simp only [detect_type]
    rw [hfind, hgt]

/-- A one-feature point-geometry `Gdf`, as produced by reading a point
shapefile. -/
def gdfPoint : Gdf :=
  { geomTypes := ["Point"], columns := ["id", "geometry"], geojson := ⟨[]⟩,
    bounds := [0, 0, 1, 1] }

/-- A zero-feature `Gdf`. -/
def gdfEmpty : Gdf :=
  { geomTypes := [], columns := ["id", "geometry"], geojson := ⟨[]⟩, bounds := [] }

/-- Witness for the inference-precedence theorem: `building_outline` with
point geometries is classified `polygon` because `"building"` (table index
3, no earlier entry matching) wins over the geometry; `xyz` falls back to
the first feature's type, and to `polygon` with zero features. -/
theorem detect_type_precedence_witness :
    detect_type "building_outline" (some gdfPoint) = "polygon" ∧
    detect_type "xyz" (some gdfPoint) = geomMapGet "Point" ∧
    detect_type "xyz" (some gdfEmpty) = "polygon" :=
  ⟨(detect_type_precedence "building_outline" gdfPoint).1 3 "building" "polygon"
      rfl (by decide) (by decide) (some gdfPoint),
   (detect_type_precedence "xyz" gdfPoint).2.1 (by decide) "Point" [] rfl,
   (detect_type_precedence "xyz" gdfEmpty).2.2 (by decide) rfl⟩

/-- C10: the geometry-introspection fallback itself defaults to polygon —
when no keyword matches and the first feature's geometry type is not one of
the six `GEOM_MAP` keys, `detect_type` returns `"polygon"` rather than
failing, exactly as it does for a zero-feature source. -/
theorem geom_fallback_default (name : String) (gdf : Gdf) (gt : String)
    (rest : List String)
    (hkw : ∀ kv ∈ NAME_TYPE, isSubstr kv.1 (strLower name) = false)
    (hgt : gdf.geomTypes = gt :: rest)
    (hunk : ∀ kv ∈ GEOM_MAP, kv.1 ≠ gt) :
    detect_type name (some gdf) = "polygon" := by
  have hfind : NAME_TYPE.find? (fun kv => isSubstr kv.1 (strLower name)) = none :=
    find?_eq_none_of_all _ _ hkw
  simp only [detect_type]
  rw [hfind, hgt]
  have hg : GEOM_MAP.find? (fun kv => kv.1 = gt) = none := by
    apply find?_eq_none_of_all
    intro kv hkv
    simpa using hunk kv hkv
  simp [geomMapGet, hg]

/-- Witness: a layer named `xyz` whose first feature has the unrecognized
geometry type `GeometryCollection` is classified `polygon`. -/
theorem geom_fallback_default_witness :
    detect_type "xyz" (some ⟨["GeometryCollection"], [], ⟨[]⟩, []⟩) = "polygon" :=
  geom_fallback_default "xyz" ⟨["GeometryCollection"], [], ⟨[]⟩, []⟩
    "GeometryCollection" [] (by decide) rfl (by decide)

/-! ## C6: debounce-timer fire (`_reload`) -/

/-- C6: when the debounce timer fires for a path, the loader runs on that
path; on success the record is upserted under the path's stem with the
color at palette index `len(layer_cache) % len(COLORS)` (the cache size
*before* the insert), leaving every other entry untouched; on failure the
entry for the stem is removed (never kept stale), again leaving other
entries untouched. -/
theorem watcher_reload_spec (read_file : String → Option Gdf) (now : ℚ)
    (path : String) (c : Cache) :
    (∀ d0, load_shp read_file now path = some d0 →
      cacheGet (shp_reload read_file now path c) (stem path)
        = some { d0 with
                 style := make_style d0.type (COLORS.getD (c.length % COLORS.length) "") } ∧
      ∀ k, k ≠ stem path →
        cacheGet (shp_reload read_file now path c) k = cacheGet c k) ∧
    (load_shp read_file now path = none →
      cacheGet (shp_reload read_file now path c) (stem path) = none ∧
      ∀ k, k ≠ stem path →
        cacheGet (shp_reload read_file now path c) k = cacheGet c k) := by
  constructor
  · intro d0 hload
    simp only [shp_reload]
    rw [hload]
    exact ⟨cacheGet_insert_self _ _ _, fun k hk => cacheGet_insert_ne _ _ _ _ hk⟩
  · intro hload
    simp only [shp_reload]
    rw [hload]
    exact ⟨cacheGet_remove_self _ _, fun k hk => cacheGet_remove_ne _ _ _ hk⟩

/-- The record `load_shp rfPoint 0 "roads.shp"` produces (before the caller
writes the style). -/
def roadsRec : LayerRecord :=
  { name := "roads", type := "polyline", geojson := ⟨[]⟩, bounds := [0, 0, 1, 1],
    count := 1, fields := ["id"], style := [], file_path := some "roads.shp",
    loaded_at := 0 }

/-- Witness for the reload theorem: a successful reload of `roads.shp` into
an empty cache installs the record styled with palette index 0, and a
failing reload removes the pre-existing `roads` entry. -/
theorem watcher_reload_witness :
    cacheGet (shp_reload rfPoint 0 "roads.shp" []) "roads"
      = some { roadsRec with style := make_style "polyline" "#4FC3F7" } ∧
    cacheGet (shp_reload (fun _ => none) 0 "roads.shp" [("roads", roadsRec)]) "roads"
      = none :=
  ⟨((watcher_reload_spec rfPoint 0 "roads.shp" []).1 roadsRec rfl).1,
   ((watcher_reload_spec (fun _ => none) 0 "roads.shp" [("roads", roadsRec)]).2 rfl).1⟩

/-! ## C7: deletion events -/

/-- C7: a deletion event for a non-directory `.shp` path removes the cache
entry keyed by the path's stem immediately — the handler arms no timer
(`_timers` is untouched), performs no load (it never consults the reader),
and leaves all other entries unchanged; a deletion event for anything that
is not a source file (or is a directory) leaves timers and cache exactly as
they were. -/
theorem deletion_immediate (ts : Timers) (c : Cache) (isDir : Bool) (p : String) :
    ((isDir = false ∧ strEndsWith p ".shp" = true) →
      (on_deleted ts c isDir p).1 = ts ∧
      cacheGet (on_deleted ts c isDir p).2 (stem p) = none ∧
      ∀ k, k ≠ stem p → cacheGet (on_deleted ts c isDir p).2 k = cacheGet c k) ∧
    (¬ (isDir = false ∧ strEndsWith p ".shp" = true) →
      on_deleted ts c isDir p = (ts, c)) := by
  constructor
  · rintro ⟨hdir, hshp⟩
    have hcond : (!isDir && strEndsWith p ".shp") = true := by
      rw [hdir, hshp]
      rfl
    simp only [on_deleted, hcond, if_true]
    exact ⟨trivial, cacheGet_remove_self _ _, fun k hk => cacheGet_remove_ne _ _ _ hk⟩
  · intro hcond
    have : (!isDir && strEndsWith p ".shp") = false := by
      cases isDir with
      | true => rfl
      | false =>
          cases hshp : strEndsWith p ".shp" with
          | true => exact absurd ⟨rfl, hshp⟩ hcond
          | false => rfl
    simp only [on_deleted, this]
    rfl

/-- Witness for the deletion theorem: deleting `roads.shp` removes the
`roads` entry at once with the armed timer map untouched, while deleting
`notes.txt` (not a source file) changes nothing. -/
theorem deletion_immediate_witness :
    (on_deleted [("other.shp", 1.2)] [("roads", roadsRec)] false "roads.shp").1
        = [("other.shp", 1.2)] ∧
    cacheGet (on_deleted [("other.shp", 1.2)] [("roads", roadsRec)] false "roads.shp").2
        "roads" = none ∧
    on_deleted [("other.shp", 1.2)] [("roads", roadsRec)] false "notes.txt"
        = ([("other.shp", 1.2)], [("roads", roadsRec)]) :=
  ⟨((deletion_immediate [("other.shp", 1.2)] [("roads", roadsRec)] false "roads.shp").1
      (by decide)).1,
   ((deletion_immediate [("other.shp", 1.2)] [("roads", roadsRec)] false "roads.shp").1
      (by decide)).2.1,
   (deletion_immediate [("other.shp", 1.2)] [("roads", roadsRec)] false "notes.txt").2
      (by decide)⟩

/-! ## C8: sample colors are hard-coded, not cycled by load order -/

/-- C8 counterexample: the sample installed second (index 1, `buildings`)
carries the hard-coded color `#FFB74D` — palette entry 2 — not
`COLORS[1 % 15] = #81C784`; sample colors are therefore not a function of
load order. -/
theorem sample_color_counterexample :
    (sampleRaw.get? 1).map (fun d => d.color) = some "#FFB74D" ∧
    COLORS.getD (1 % COLORS.length) "" = "#81C784" ∧
    ((load_samples [] 0).get? 1).map (fun e => e.2.style)
      = some (make_style "polygon" "#FFB74D") ∧
    "#FFB74D" ≠ "#81C784" :=
  ⟨rfl, rfl, rfl, by decide⟩

/-- C8 (amended): sample layers do share the real layers' style
*derivation* — every installed sample's style is `make_style type color`,
and every sample color is drawn from the fixed palette — but the color is
the record's own hard-coded `color` field, not `COLORS[i % len(COLORS)]`
for its install position `i`. -/
theorem sample_style_derivation :
    (load_samples [] 0).map (fun e => e.2.style)
      = sampleRaw.map (fun d => make_style d.type d.color) ∧
    ∀ d ∈ sampleRaw, d.color ∈ COLORS :=
  ⟨rfl, by decide⟩

/-! ## C9: the lock is held across loader calls during refresh -/

/-- Lock depth after processing a list of events from depth `d`. -/
def depthAfter (d : Nat) (es : List Ev) : Nat :=
  es.foldl
    (fun d e => match e with
      | Ev.acq => d + 1
      | Ev.rel => d - 1
      | Ev.load _ => d) d

theorem annotate_append (xs : List Ev) :
    ∀ (d : Nat) (ys : List Ev),
      annotate d (xs ++ ys) = annotate d xs ++ annotate (depthAfter d xs) ys := by
  induction xs with
  | nil => intro d ys; rfl
  | cons x xs ih =>
      intro d ys
      cases x with
      | acq =>
          simp only [List.cons_append, annotate, List.append_eq]
          rw [ih (d + 1) ys]
          rfl
      | rel =>
          simp only [List.cons_append, annotate, List.append_eq]
          rw [ih (d - 1) ys]
          rfl
      | load p =>
          simp only [List.cons_append, annotate, List.append_eq]
          rw [ih d ys]
          rfl

theorem annotate_load_map (d : Nat) (l : List SrcFile) :
    annotate d (l.map (fun f => Ev.load (pathOf f)))
      = l.map (fun f => (d, Ev.load (pathOf f))) := by
  induction l with
  | nil => rfl
  | cons f l ih => simp only [List.map_cons, annotate, ih]

theorem depthAfter_load_map (d : Nat) (l : List SrcFile) :
    depthAfter d (l.map (fun f => Ev.load (pathOf f))) = d := by
  induction l with
  | nil => rfl
  | cons f l ih => simpa [depthAfter, List.foldl_cons] using ih

/-- C9 (amended/refuting the original): `refresh_all` holds the cache lock
across the *entire* rebuild, loader file I/O included — every loader
invocation in its event trace happens at lock depth exactly 1, never
outside the critical section.  The new record set is therefore not built
outside the lock, and readers can block behind the full loop. -/
theorem refresh_lock_held_across_loads (fs : List SrcFile)
    (read_file : String → Option Gdf) (now : ℚ) (d : Nat) (p : String)
    (h : (d, Ev.load p) ∈ annotate 0 (refresh_trace fs read_file now)) :
    0 < d := by
  unfold refresh_trace at h
  rw [List.append_assoc, List.append_assoc] at h
  simp only [annotate, List.singleton_append, List.append_eq, List.nil_append] at h
  rw [annotate_append, annotate_load_map, depthAfter_load_map] at h
  rcases List.mem_cons.mp h with h | h
  · simp at h
  rcases List.mem_append.mp h with h | h
  · rcases List.mem_map.mp h with ⟨f, -, heq⟩
    cases heq
    simp
  · simp only [List.singleton_append, annotate] at h
    rcases List.mem_cons.mp h with h | h
    · simp at h
    · by_cases hemp : (loopCache fs read_file now).isEmpty = true
      · rw [if_pos hemp] at h
        simp [annotate] at h
      · rw [if_neg hemp] at h
        simp [annotate] at h

/-- Witness for the lock theorem: in the refresh over a root containing
only `sub/pipes.shp`, the single loader call appears in the trace at
depth 1. -/
theorem refresh_lock_held_witness :
    ((1 : Nat), Ev.load "sub/pipes.shp")
        ∈ annotate 0 (refresh_trace [⟨["sub"], "pipes.shp"⟩] rfPoint 0) ∧
    (0 : Nat) < 1 :=
  ⟨by decide,
   refresh_lock_held_across_loads [⟨["sub"], "pipes.shp"⟩] rfPoint 0 1
     "sub/pipes.shp" (by decide)⟩

/-- C9 counterexample: a concrete refresh trace in which a loader
invocation occurs at lock depth 1, refuting "loader file I/O and geometry
parsing never happen while the lock is held". -/
theorem load_inside_lock_counterexample :
    ((1 : Nat), Ev.load "roads.shp")
        ∈ annotate 0 (refresh_trace [⟨[], "roads.shp"⟩] rfPoint 0) ∧
    (0 : Nat) ≠ 1 :=
  ⟨by decide, by decide⟩

end Geoportal
